import Mathlib

/-!
Verification of the lifecycle-rule merge and hashing logic of
`upload_report.py` (AmazonS3_Scripts).

The script uploads a zip file to an S3 bucket under a key
`<sha256-of-file>/report.zip` and then merges a lifecycle (expiration)
rule for that key into the bucket's lifecycle configuration.

The shallow embedding below models:
  * `newlifecyclerule` (lines 50-67): builds the rule dictionary;
  * `setLifecycleConfig` (lines 70-117): fetches the current rule set,
    removes an existing rule with the same ID, appends the new rule and
    writes the set back.  The remote S3 calls are modelled by their
    observable data: the fetch outcome is an input (`FetchResult`), and
    the effects (whether `bucket_lifecycle.delete()` was issued, which
    rule list was submitted to `bucket_lifecycle.put`, what was printed,
    whether `sys.exit` was called) are the output (`MergeResult`);
  * `getFolderName` (lines 167-193): the chunked SHA-256 of the file,
    with SHA-256 itself implemented from FIPS 180-4 (the script calls
    Python's `hashlib`, whose incremental interface is modelled by
    accumulating the bytes fed to `update` and digesting at the end).

Python byte strings are modelled as `List Nat` (each entry a byte) and
Python `str` as Lean `String`.
-/

namespace UploadReport

/-- A bucket lifecycle rule: the dictionary built at lines 62-65 of
`upload_report.py`, with keys `Status`, `Prefix`, `Expiration` (a
one-key dictionary holding `Days`, modelled by `ExpirationDays`) and
`ID`. -/
structure LifecycleRule where
  Status : String
  Prefix : String
  ExpirationDays : Nat
  ID : String
deriving DecidableEq, Inhabited

/-- Model of Python `s.split("/")[0]` (lines 60 and 103): the part of
`s` strictly before its first `"/"`, or all of `s` when it contains
none.  (Python's `split` never returns an empty list, and its first
element is exactly the text before the first separator.) -/
def firstSegment (s : String) : String :=
  ⟨s.data.takeWhile (fun c => c != '/')⟩

/-- `newlifecyclerule(prefix)`, lines 50-67: expiration rule for the
given `folder/filename` key.  `ID` is `prefix.split('/')[0]`, `Prefix`
is the key itself, status `Enabled`, expiration 3 days. -/
def newlifecyclerule (pfx : String) : LifecycleRule :=
  { Status := "Enabled"
    Prefix := pfx
    ExpirationDays := 3
    ID := firstSegment pfx }

/-- The last index `i < n` with `p i = true`, computed exactly as the
loop at lines 101-104 computes `index`: start from `None` and overwrite
with each matching `i` in increasing order. -/
def lastIdxAux (p : Nat → Bool) (n : Nat) : Option Nat :=
  (List.range n).foldl (fun index i => if p i then some i else index) none

/-- Lines 101-104: scan `bucket_lifecycle_cfg['Rules']` for an entry
whose `ID` equals `prefix.split("/")[0]`; `index` ends as the last
matching position (or `none`). -/
def scanIndex (rules : List LifecycleRule) (d : String) : Option Nat :=
  lastIdxAux (fun i => (rules.getD i default).ID == d) rules.length

/-- Lines 101-110: the in-memory rule list that is submitted to
`bucket_lifecycle.put`: the fetched list, with the entry at the scanned
index deleted when one was found, and the new rule appended. -/
def mergedRules (rules : List LifecycleRule) (pfx : String) : List LifecycleRule :=
  (match scanIndex rules (firstSegment pfx) with
    | some i => rules.eraseIdx i
    | none => rules) ++ [newlifecyclerule pfx]

/-- Outcome of `get_bucket_lifecycle_configuration` (line 84), as the
merge observes it: a rule list (after the `ResponseMetadata` entry,
which sits beside `Rules` in the response dictionary, is popped at
line 95 — it never enters `Rules`, so it does not appear here), the
`NoSuchLifecycleConfiguration` client error, or any other client
error carrying its message text. -/
inductive FetchResult where
  | ok (rules : List LifecycleRule)
  | noSuchLifecycleConfiguration
  | otherError (msg : String)
deriving DecidableEq

/-- The observable effects of a run of `setLifecycleConfig` that did
not call `sys.exit`: whether `bucket_lifecycle.delete()` (line 108) was
issued, the rule list submitted to `bucket_lifecycle.put` (line 114),
and the error lines printed. -/
structure MergeEffects where
  deleteIssued : Bool
  putRules : List LifecycleRule
  printed : List String
deriving DecidableEq

/-- Result of a run of `setLifecycleConfig`: either `sys.exit(code)`
after printing the given lines, or a normal return with the recorded
effects. -/
inductive MergeResult where
  | exit (code : Nat) (printed : List String)
  | normal (effects : MergeEffects)
deriving DecidableEq

/-- What the `except` branch at lines 116-117 prints: the put error is
caught and reported, nothing more. -/
def putPrinted (putError : Option String) : List String :=
  match putError with
  | some e => ["Error with lifecycle configuration: " ++ e]
  | none => []

/-- Lines 99-117 of `setLifecycleConfig`, after the fetch succeeded (or
was recovered to an empty rule list): scan, conditional delete of the
remote configuration, append, put.  `putError` is the outcome of the
final `bucket_lifecycle.put` call — `some e` when it raises a
`ClientError` with message `e`. -/
def mergePhase (pfx : String) (rules : List LifecycleRule)
    (putError : Option String) : MergeResult :=
  .normal
    { deleteIssued := (scanIndex rules (firstSegment pfx)).isSome
      putRules := mergedRules rules pfx
      printed := putPrinted putError }

/-- `setLifecycleConfig(prefix)`, lines 70-117.  The fetch at line 84
is the `fetch` input: a `NoSuchLifecycleConfiguration` error is
replaced by an empty rule list (line 87); any other `ClientError` is
printed and the process exits with status 1 (lines 89-90); otherwise
the fetched rules are merged and written back. -/
def setLifecycleConfig (pfx : String) (fetch : FetchResult)
    (putError : Option String) : MergeResult :=
  match fetch with
  | .otherError e => .exit 1 ["Error getting lifecycle configuration: " ++ e]
  | .noSuchLifecycleConfiguration => mergePhase pfx [] putError
  | .ok rules => mergePhase pfx rules putError

/-- The rule list submitted to `bucket_lifecycle.put`, when the run
reached that call. -/
def MergeResult.putRulesD : MergeResult → List LifecycleRule
  | .exit _ _ => []
  | .normal e => e.putRules

/-- Whether `bucket_lifecycle.delete()` was issued. -/
def MergeResult.deleteIssuedD : MergeResult → Bool
  | .exit _ _ => false
  | .normal e => e.deleteIssued

/-- The lines printed by the run. -/
def MergeResult.printedD : MergeResult → List String
  | .exit _ p => p
  | .normal e => e.printed

/-- `some c` when the run called `sys.exit(c)`; `none` when
`setLifecycleConfig` returned normally (the script then runs to the end
of `main` and the process exits with status 0). -/
def MergeResult.exitCode : MergeResult → Option Nat
  | .exit c _ => some c
  | .normal _ => none

/-! ### SHA-256 (FIPS 180-4), the reference digest

`getFolderName` calls Python's `hashlib.sha256`; the algorithm itself
is implemented here so that the digest the script computes can be
compared with the reference SHA-256 of the whole stream. -/

/-- Split `data` into consecutive chunks of `block` bytes each (the
final chunk may be shorter): the sequence of non-empty buffers returned
by `datafile.read(block)` at lines 183 and 191. -/
def chunks (block : Nat) (data : List Nat) : List (List Nat) :=
  if h : block = 0 ∨ data = [] then []
  else data.take block :: chunks block (data.drop block)
termination_by data.length
decreasing_by
  push_neg at h
  simp only [List.length_drop]
  have : 0 < data.length := List.length_pos.mpr h.2
  omega

/-- The SHA-256 word modulus 2^32. -/
def w32 : Nat := 4294967296

/-- Addition modulo 2^32. -/
def add32 (a b : Nat) : Nat := (a + b) % w32

/-- Right rotation of a 32-bit word by `n` places. -/
def rotr32 (n x : Nat) : Nat := (x / 2 ^ n + x % 2 ^ n * 2 ^ (32 - n)) % w32

/-- Logical right shift of a 32-bit word by `n` places. -/
def shr32 (n x : Nat) : Nat := x / 2 ^ n

/-- Bitwise complement of a 32-bit word. -/
def not32 (x : Nat) : Nat := 4294967295 - x % w32

/-- The `Ch` function of FIPS 180-4 §4.1.2. -/
def ch (x y z : Nat) : Nat := (x &&& y) ^^^ (not32 x &&& z)

/-- The `Maj` function of FIPS 180-4 §4.1.2. -/
def maj (x y z : Nat) : Nat := (x &&& y) ^^^ ((x &&& z) ^^^ (y &&& z))

/-- `Σ0` of FIPS 180-4 §4.1.2. -/
def bsig0 (x : Nat) : Nat := rotr32 2 x ^^^ (rotr32 13 x ^^^ rotr32 22 x)

/-- `Σ1` of FIPS 180-4 §4.1.2. -/
def bsig1 (x : Nat) : Nat := rotr32 6 x ^^^ (rotr32 11 x ^^^ rotr32 25 x)

/-- `σ0` of FIPS 180-4 §4.1.2. -/
def ssig0 (x : Nat) : Nat := rotr32 7 x ^^^ (rotr32 18 x ^^^ shr32 3 x)

/-- `σ1` of FIPS 180-4 §4.1.2. -/
def ssig1 (x : Nat) : Nat := rotr32 17 x ^^^ (rotr32 19 x ^^^ shr32 10 x)

/-- The 64 SHA-256 round constants (FIPS 180-4 §4.2.2), in decimal. -/
def sha256K : List Nat :=
  [1116352408, 1899447441, 3049323471, 3921009573,
   961987163, 1508970993, 2453635748, 2870763221,
   3624381080, 310598401, 607225278, 1426881987,
   1925078388, 2162078206, 2614888103, 3248222580,
   3835390401, 4022224774, 264347078, 604807628,
   770255983, 1249150122, 1555081692, 1996064986,
   2554220882, 2821834349, 2952996808, 3210313671,
   3336571891, 3584528711, 113926993, 338241895,
   666307205, 773529912, 1294757372, 1396182291,
   1695183700, 1986661051, 2177026350, 2456956037,
   2730485921, 2820302411, 3259730800, 3345764771,
   3516065817, 3600352804, 4094571909, 275423344,
   430227734, 506948616, 659060556, 883997877,
   958139571, 1322822218, 1537002063, 1747873779,
   1955562222, 2024104815, 2227730452, 2361852424,
   2428436474, 2756734187, 3204031479, 3329325298]

/-- The initial SHA-256 hash value (FIPS 180-4 §5.3.3), in decimal. -/
def sha256H0 : List Nat :=
  [1779033703, 3144134277, 1013904242, 2773480762,
   1359893119, 2600822924, 528734635, 1541459225]

/-- The eight big-endian bytes of the 64-bit message bit length
(FIPS 180-4 §5.1.1). -/
def lenBytes (n : Nat) : List Nat :=
  [n / 72057594037927936 % 256, n / 281474976710656 % 256,
   n / 1099511627776 % 256, n / 4294967296 % 256,
   n / 16777216 % 256, n / 65536 % 256, n / 256 % 256, n % 256]

/-- SHA-256 message padding (FIPS 180-4 §5.1.1): append the byte 0x80,
then zero bytes until the length is 56 mod 64, then the bit length of
the message in eight big-endian bytes. -/
def padMessage (msg : List Nat) : List Nat :=
  msg ++ 128 :: List.replicate ((120 - (msg.length + 1) % 64) % 64) 0
      ++ lenBytes (8 * msg.length)

/-- Big-endian 32-bit words from a list of bytes (FIPS 180-4 §5.2.1;
a trailing fragment of fewer than four bytes is dropped — none occurs,
since the padded message length is a multiple of 64). -/
def toWords : List Nat → List Nat
  | a :: b :: c :: d :: rest =>
      (a % 256 * 16777216 + b % 256 * 65536 + c % 256 * 256 + d % 256) :: toWords rest
  | _ => []

/-- The 64-word message schedule of a block (FIPS 180-4 §6.2.2 step 1):
the 16 block words, extended by
`W t = σ1 (W (t-2)) + W (t-7) + σ0 (W (t-15)) + W (t-16)` (mod 2^32). -/
def sha256Schedule (block : List Nat) : Array Nat :=
  (List.range 48).foldl
    (fun w i =>
      w.push (add32 (add32 (ssig1 (w.getD (i + 14) 0)) (w.getD (i + 9) 0))
        (add32 (ssig0 (w.getD (i + 1) 0)) (w.getD i 0))))
    (toWords block).toArray

/-- One round of the SHA-256 compression function (FIPS 180-4 §6.2.2
step 3) on the working variables `[a,b,c,d,e,f,g,h]`, with round
constant `k` and schedule word `w`. -/
def sha256Round (k w : Nat) : List Nat → List Nat
  | [a, b, c, d, e, f, g, hh] =>
      let t1 := add32 hh (add32 (bsig1 e) (add32 (ch e f g) (add32 k w)))
      let t2 := add32 (bsig0 a) (maj a b c)
      [add32 t1 t2, a, b, c, add32 d t1, e, f, g]
  | s => s

/-- Compress one 64-byte block into the intermediate hash value `hv`
(eight words; FIPS 180-4 §6.2.2 steps 1-4). -/
def sha256Compress (hv : List Nat) (block : List Nat) : List Nat :=
  let w := sha256Schedule block
  let s := (List.range 64).foldl
    (fun s t => sha256Round (sha256K.getD t 0) (w.getD t 0) s) hv
  List.zipWith add32 hv s

/-- Big-endian bytes of a 32-bit word. -/
def wordBytes (x : Nat) : List Nat :=
  [x / 16777216 % 256, x / 65536 % 256, x / 256 % 256, x % 256]

/-- The 32-byte SHA-256 digest of a byte list: pad, split into 64-byte
blocks, fold the compression function from the initial hash value
(FIPS 180-4 §6.2). -/
def sha256Bytes (msg : List Nat) : List Nat :=
  ((chunks 64 (padMessage msg)).foldl sha256Compress sha256H0).flatMap wordBytes

/-- The sixteen lowercase hexadecimal digits: the decimal digits
followed by the six lowercase letters. -/
def hexDigits : List Char :=
  ['0', '1', '2', '3', '4'] ++ ['5', '6', '7', '8', '9']
    ++ ['a', 'b', 'c'] ++ ['d', 'e', 'f']

/-- The hexadecimal digit character of a value below 16. -/
def hexChar (n : Nat) : Char := hexDigits.getD n '0'

/-- The two lowercase hexadecimal characters of a byte. -/
def byteHex (b : Nat) : List Char := [hexChar (b / 16 % 16), hexChar (b % 16)]

/-- Lowercase hexadecimal rendering of a byte list, two characters per
byte: the format of Python's `hexdigest()`. -/
def bytesToHex (bs : List Nat) : String := ⟨bs.flatMap byteHex⟩

/-- The SHA-256 digest of a byte list as a lowercase hexadecimal
string: the reference digest of the whole stream. -/
def sha256hex (msg : List Nat) : String := bytesToHex (sha256Bytes msg)

/-- Model of a Python `hashlib.sha256()` object (line 186): `update`
accumulates the bytes fed so far, `hexdigest` hashes the accumulated
stream (`hashlib`'s documented contract: feeding a stream piecewise is
equivalent to hashing the concatenation in one call). -/
structure Sha256Obj where
  acc : List Nat
deriving DecidableEq

/-- `hashobj.update(buf)` (line 190). -/
def Sha256Obj.update (o : Sha256Obj) (buf : List Nat) : Sha256Obj :=
  ⟨o.acc ++ buf⟩

/-- `str(hashobj.hexdigest())` (line 193; `str` of a string is the
string itself). -/
def Sha256Obj.hexdigest (o : Sha256Obj) : String := sha256hex o.acc

/-- The read loop of `getFolderName` (lines 181-193), generalised over
the chunk size `block`: read `block` bytes at a time, update the hash
object with each non-empty buffer, return the hex digest. -/
def hashChunks (block : Nat) (data : List Nat) : String :=
  ((chunks block data).foldl Sha256Obj.update ⟨[]⟩).hexdigest

/-- `getFolderName(filename)` (lines 167-193) on the success path of
`verifyzip` (which either returns `None` or calls `sys.exit`; it never
alters the file): the SHA-256 hex digest of the file's bytes, read in
chunks of `block = 1024` (line 179). -/
def getFolderName (data : List Nat) : String := hashChunks 1024 data

/-- A concrete rule for the digest `"abc123"`, as the merge itself
would have written it: used as the fetched data of concrete
instances. -/
def sampleRule : LifecycleRule :=
  { Status := "Enabled"
    Prefix := "abc123/report.zip"
    ExpirationDays := 3
    ID := "abc123" }

/-! ### Characterisation of the scan loop (lines 101-104) -/

theorem lastIdxAux_succ (p : Nat → Bool) (n : Nat) :
    lastIdxAux p (n + 1) = if p n then some n else lastIdxAux p n := by
  unfold lastIdxAux
  rw [List.range_succ, List.foldl_append]
  rfl

theorem lastIdxAux_eq_none_iff (p : Nat → Bool) (n : Nat) :
    lastIdxAux p n = none ↔ ∀ i < n, p i = false := by
  induction n with
  | zero => simp [lastIdxAux]
  | succ n ih =>
    rw [lastIdxAux_succ]
    by_cases hp : p n = true
    · rw [if_pos hp]
      constructor
      · intro h; exact absurd h (Option.some_ne_none n)
      · intro h
        have := h n (Nat.lt_succ_self n)
        rw [hp] at this
        cases this
    · rw [Bool.not_eq_true] at hp
      rw [if_neg (by simp [hp]), ih]
      constructor
      · intro h i hi
        rcases Nat.lt_succ_iff_lt_or_eq.mp hi with h2 | h2
        · exact h i h2
        · subst h2; exact hp
      · intro h i hi; exact h i (Nat.lt_succ_of_lt hi)

theorem lastIdxAux_eq_some (p : Nat → Bool) :
    ∀ (n j : Nat), lastIdxAux p n = some j →
      j < n ∧ p j = true ∧ ∀ i, j < i → i < n → p i = false := by
  intro n
  induction n with
  | zero => intro j h; simp [lastIdxAux] at h
  | succ n ih =>
    intro j h
    rw [lastIdxAux_succ] at h
    by_cases hp : p n = true
    · rw [if_pos hp] at h
      injection h with h
      subst h
      exact ⟨Nat.lt_succ_self n, hp, fun i h1 h2 => by omega⟩
    · rw [Bool.not_eq_true] at hp
      rw [if_neg (by simp [hp])] at h
      obtain ⟨h1, h2, h3⟩ := ih j h
      refine ⟨Nat.lt_succ_of_lt h1, h2, fun i hj hi => ?_⟩
      rcases Nat.lt_succ_iff_lt_or_eq.mp hi with h4 | h4
      · exact h3 i hj h4
      · subst h4; exact hp

theorem scanIndex_eq_none_iff (rules : List LifecycleRule) (d : String) :
    scanIndex rules d = none ↔ ∀ r ∈ rules, (r.ID == d) = false := by
  unfold scanIndex
  rw [lastIdxAux_eq_none_iff]
  constructor
  · intro h r hr
    obtain ⟨i, hi, hir⟩ := List.mem_iff_getElem.mp hr
    have := h i hi
    rwa [List.getD_eq_getElem rules default hi, hir] at this
  · intro h i hi
    rw [List.getD_eq_getElem rules default hi]
    exact h _ (List.getElem_mem hi)

theorem scanIndex_eq_some (rules : List LifecycleRule) (d : String) (j : Nat)
    (h : scanIndex rules d = some j) :
    j < rules.length ∧ ((rules.getD j default).ID == d) = true ∧
      ∀ i, j < i → i < rules.length → ((rules.getD i default).ID == d) = false :=
  lastIdxAux_eq_some _ _ _ h

/-! ### Counting and framing lemmas for `eraseIdx` -/

theorem countP_eraseIdx_getD {α : Type} [Inhabited α] (p : α → Bool) :
    ∀ (l : List α) (j : Nat), j < l.length → p (l.getD j default) = true →
      (l.eraseIdx j).countP p + 1 = l.countP p := by
  intro l
  induction l with
  | nil => intro j hj; simp at hj
  | cons a t ih =>
    intro j hj hp
    cases j with
    | zero =>
      rw [List.getD_cons_zero] at hp
      simp [List.eraseIdx, List.countP_cons, hp]
    | succ j =>
      rw [List.getD_cons_succ] at hp
      have hj' : j < t.length := by simpa using hj
      simp only [List.eraseIdx, List.countP_cons]
      have := ih j hj' hp
      omega

theorem filter_eraseIdx_getD {α : Type} [Inhabited α] (p q : α → Bool)
    (hpq : ∀ a, p a = true → q a = false) :
    ∀ (l : List α) (j : Nat), j < l.length → p (l.getD j default) = true →
      (l.eraseIdx j).filter q = l.filter q := by
  intro l
  induction l with
  | nil => intro j hj; simp at hj
  | cons a t ih =>
    intro j hj hp
    cases j with
    | zero =>
      rw [List.getD_cons_zero] at hp
      simp [List.eraseIdx, List.filter_cons, hpq a hp]
    | succ j =>
      rw [List.getD_cons_succ] at hp
      have hj' : j < t.length := by simpa using hj
      simp only [List.eraseIdx, List.filter_cons]
      rw [ih j hj' hp]

/-! ### The merged rule list -/

theorem newlifecyclerule_ID (pfx : String) :
    (newlifecyclerule pfx).ID = firstSegment pfx := rfl

theorem mergedRules_of_scan_none (rules : List LifecycleRule) (pfx : String)
    (hscan : scanIndex rules (firstSegment pfx) = none) :
    mergedRules rules pfx = rules ++ [newlifecyclerule pfx] := by
  unfold mergedRules
  rw [hscan]

theorem mergedRules_of_scan_some (rules : List LifecycleRule) (pfx : String)
    (j : Nat) (hscan : scanIndex rules (firstSegment pfx) = some j) :
    mergedRules rules pfx = rules.eraseIdx j ++ [newlifecyclerule pfx] := by
  unfold mergedRules
  rw [hscan]

theorem mergedRules_countP_eq_one (rules : List LifecycleRule) (pfx : String)
    (h : rules.countP (fun r => r.ID == firstSegment pfx) ≤ 1) :
    (mergedRules rules pfx).countP (fun r => r.ID == firstSegment pfx) = 1 := by
  unfold mergedRules
  rw [List.countP_append]
  have hnew : (newlifecyclerule pfx).ID == firstSegment pfx := by
    simp [newlifecyclerule_ID]
  cases hscan : scanIndex rules (firstSegment pfx) with
  | none =>
    have h0 : rules.countP (fun r => r.ID == firstSegment pfx) = 0 := by
      rw [List.countP_eq_zero]
      intro r hr
      simp [(scanIndex_eq_none_iff rules (firstSegment pfx)).mp hscan r hr]
    simp [h0, List.countP_cons, hnew]
  | some j =>
    obtain ⟨hj, hpj, _⟩ := scanIndex_eq_some rules (firstSegment pfx) j hscan
    have herase := countP_eraseIdx_getD (fun r => r.ID == firstSegment pfx) rules j hj hpj
    have hpos : 0 < rules.countP (fun r => r.ID == firstSegment pfx) := by
      rw [List.countP_pos_iff]
      refine ⟨rules.getD j default, ?_, hpj⟩
      rw [List.getD_eq_getElem rules default hj]
      exact List.getElem_mem hj
    simp only [List.countP_cons, List.countP_nil, hnew, if_pos]
    omega

/-! ### The chunked read loop computes the digest of the whole stream -/

theorem chunks_flatten (block : Nat) (hb : 0 < block) (data : List Nat) :
    (chunks block data).flatten = data := by
  have H : ∀ (n : Nat) (data : List Nat), data.length ≤ n →
      (chunks block data).flatten = data := by
    intro n
    induction n with
    | zero =>
      intro data hd
      have hnil : data = [] := List.eq_nil_of_length_eq_zero (Nat.le_zero.mp hd)
      subst hnil
      rw [chunks]
      simp
    | succ n ih =>
      intro data hd
      rw [chunks]
      by_cases hdata : data = []
      · simp [hdata]
      · rw [dif_neg (by push_neg; exact ⟨Nat.pos_iff_ne_zero.mp hb, hdata⟩)]
        rw [List.flatten_cons,
          ih (data.drop block) (by simp only [List.length_drop]; omega)]
        exact List.take_append_drop block data
  exact H data.length data le_rfl

theorem foldl_update_acc (cs : List (List Nat)) :
    ∀ o : Sha256Obj, (cs.foldl Sha256Obj.update o).acc = o.acc ++ cs.flatten := by
  induction cs with
  | nil => intro o; simp
  | cons c t ih =>
    intro o
    simp [List.foldl_cons, ih, Sha256Obj.update, List.append_assoc]

theorem hashChunks_eq_sha256hex (block : Nat) (hb : 0 < block) (data : List Nat) :
    hashChunks block data = sha256hex data := by
  unfold hashChunks Sha256Obj.hexdigest
  rw [foldl_update_acc]
  simp [chunks_flatten block hb data]

theorem hexChar_mem_hexDigits (n : Nat) : hexChar n ∈ hexDigits := by
  unfold hexChar
  by_cases h : n < hexDigits.length
  · rw [List.getD_eq_getElem _ _ h]
    exact List.getElem_mem h
  · rw [List.getD_eq_default _ _ (Nat.le_of_not_lt h)]
    decide

theorem sha256hex_lower_hex (msg : List Nat) :
    ∀ c ∈ (sha256hex msg).data, c ∈ hexDigits := by
  intro c hc
  have hc' : c ∈ (sha256Bytes msg).flatMap byteHex := hc
  obtain ⟨b, _, hcb⟩ := List.mem_flatMap.mp hc'
  unfold byteHex at hcb
  rcases List.mem_cons.mp hcb with h | h
  · subst h; exact hexChar_mem_hexDigits _
  · rcases List.mem_cons.mp h with h2 | h2
    · subst h2; exact hexChar_mem_hexDigits _
    · cases h2

/-! ### The first path segment of the upload key -/

theorem takeWhile_append_eq {α : Type} (p : α → Bool) (l₁ l₂ : List α) (x : α)
    (h1 : ∀ a ∈ l₁, p a = true) (h2 : p x = false) :
    (l₁ ++ x :: l₂).takeWhile p = l₁ := by
  induction l₁ with
  | nil => simp [List.takeWhile_cons, h2]
  | cons a t ih =>
    have ha : p a = true := h1 a (List.mem_cons_self a t)
    simp only [List.cons_append, List.takeWhile_cons, ha, if_true]
    rw [ih (fun b hb => h1 b (List.mem_cons_of_mem a hb))]

theorem firstSegment_key (d : String) (hd : ∀ c ∈ d.data, c ≠ '/') :
    firstSegment (d ++ "/report.zip") = d := by
  unfold firstSegment
  have hdata : (d ++ "/report.zip").data = d.data ++ '/' :: "report.zip".data := by
    rw [String.data_append]
  rw [hdata, takeWhile_append_eq]
  · intro a ha
    simp only [bne_iff_ne, ne_eq]
    exact hd a ha
  · decide

/-! ### The claims -/

/-- C1 counterexample: a fetched rule set holding the rule with ID
`"abc123"` twice.  The scan keeps only the last matching index, so the
merge removes one copy and appends the new rule: the written-back set
holds two rules with ID `"abc123"`, not exactly one — the claim fails
for this fetched rule set. -/
theorem setLifecycleConfig_dup_counterexample :
    ¬ ((setLifecycleConfig "abc123/report.zip"
        (.ok [sampleRule, sampleRule]) none).putRulesD.countP
        (fun r => r.ID == "abc123") = 1) ∧
    ((setLifecycleConfig "abc123/report.zip"
        (.ok [sampleRule, sampleRule]) none).putRulesD.countP
        (fun r => r.ID == "abc123") = 2) := by decide

/-- C1 (amended): for every fetched rule set containing at most one
rule whose ID equals the derived digest (the situation the script
expects, and the one its own merge produces), after `setLifecycleConfig`
completes successfully the written-back rule set contains exactly one
rule with that ID; the newly constructed rule is its last element; and
running the merge again on the written-back set still leaves exactly
one rule for that digest (idempotence). -/
theorem setLifecycleConfig_unique_rule (rules : List LifecycleRule)
    (pfx : String) (putError putError2 : Option String)
    (h : rules.countP (fun r => r.ID == firstSegment pfx) ≤ 1) :
    (setLifecycleConfig pfx (.ok rules) putError).putRulesD.countP
        (fun r => r.ID == firstSegment pfx) = 1 ∧
    (setLifecycleConfig pfx (.ok rules) putError).putRulesD.getLast?
      = some (newlifecyclerule pfx) ∧
    (setLifecycleConfig pfx
        (.ok ((setLifecycleConfig pfx (.ok rules) putError).putRulesD))
        putError2).putRulesD.countP (fun r => r.ID == firstSegment pfx) = 1 := by
  have h1 := mergedRules_countP_eq_one rules pfx h
  refine ⟨h1, ?_, ?_⟩
  · show (mergedRules rules pfx).getLast? = _
    unfold mergedRules
    exact List.getLast?_concat _
  · exact mergedRules_countP_eq_one _ pfx (le_of_eq h1)

/-- C1 witness: a fetched set with a single rule for digest
`"abc123"`. -/
theorem setLifecycleConfig_unique_rule_witness :
    ([sampleRule].countP
      (fun r => r.ID == firstSegment "abc123/report.zip") ≤ 1) ∧
    ((setLifecycleConfig "abc123/report.zip"
        (.ok [sampleRule]) none).putRulesD.countP
        (fun r => r.ID == firstSegment "abc123/report.zip") = 1 ∧
      (setLifecycleConfig "abc123/report.zip"
        (.ok [sampleRule]) none).putRulesD.getLast?
        = some (newlifecyclerule "abc123/report.zip") ∧
      (setLifecycleConfig "abc123/report.zip"
        (.ok ((setLifecycleConfig "abc123/report.zip"
          (.ok [sampleRule]) none).putRulesD))
        none).putRulesD.countP
        (fun r => r.ID == firstSegment "abc123/report.zip") = 1) :=
  ⟨by decide,
   setLifecycleConfig_unique_rule [sampleRule]
     "abc123/report.zip" none none (by decide)⟩

/-- C2: for an upload key `d ++ "/report.zip"` whose digest part `d`
holds no path separator, the rule built by `newlifecyclerule` has ID
`d` (the key's first path segment), `Prefix` the full upload key,
status `"Enabled"` and an expiration of exactly 3 days, and it is
appended at the end of the in-memory rule set. -/
theorem newlifecyclerule_key_spec (d : String) (rules : List LifecycleRule)
    (hd : ∀ c ∈ d.data, c ≠ '/') :
    (newlifecyclerule (d ++ "/report.zip")).ID = d ∧
    (newlifecyclerule (d ++ "/report.zip")).Prefix = d ++ "/report.zip" ∧
    (newlifecyclerule (d ++ "/report.zip")).Status = "Enabled" ∧
    (newlifecyclerule (d ++ "/report.zip")).ExpirationDays = 3 ∧
    (mergedRules rules (d ++ "/report.zip")).getLast?
      = some (newlifecyclerule (d ++ "/report.zip")) := by
  refine ⟨?_, rfl, rfl, rfl, ?_⟩
  · rw [newlifecyclerule_ID, firstSegment_key d hd]
  · unfold mergedRules
    exact List.getLast?_concat _

/-- C2 witness: the digest `"abc123"` and an empty fetched set. -/
theorem newlifecyclerule_key_spec_witness :
    (∀ c ∈ ("abc123" : String).data, c ≠ '/') ∧
    ((newlifecyclerule ("abc123" ++ "/report.zip")).ID = "abc123" ∧
      (newlifecyclerule ("abc123" ++ "/report.zip")).Prefix
        = "abc123" ++ "/report.zip" ∧
      (newlifecyclerule ("abc123" ++ "/report.zip")).Status = "Enabled" ∧
      (newlifecyclerule ("abc123" ++ "/report.zip")).ExpirationDays = 3 ∧
      (mergedRules [] ("abc123" ++ "/report.zip")).getLast?
        = some (newlifecyclerule ("abc123" ++ "/report.zip"))) :=
  ⟨by decide, newlifecyclerule_key_spec "abc123" [] (by decide)⟩

/-- C3: when the lifecycle fetch reports `NoSuchLifecycleConfiguration`
(line 86), the merge proceeds on an empty rule set: the run does not
exit, and the rule set written back is exactly the one newly appended
rule. -/
theorem setLifecycleConfig_noconfig (pfx : String) (putError : Option String) :
    (setLifecycleConfig pfx .noSuchLifecycleConfiguration putError).putRulesD
      = [newlifecyclerule pfx] ∧
    (setLifecycleConfig pfx .noSuchLifecycleConfiguration putError).exitCode
      = none :=
  ⟨rfl, rfl⟩

/-- C4: a lifecycle-fetch failure other than
`NoSuchLifecycleConfiguration` is reported and the process exits with
status 1 (lines 89-90); the no-configuration failure alone is
recovered from. -/
theorem setLifecycleConfig_fetch_error (pfx e : String) (putError : Option String) :
    setLifecycleConfig pfx (.otherError e) putError
      = .exit 1 ["Error getting lifecycle configuration: " ++ e] ∧
    (setLifecycleConfig pfx .noSuchLifecycleConfiguration putError).exitCode
      = none :=
  ⟨rfl, rfl⟩

/-- C5: when the final `bucket_lifecycle.put` fails with a client
error, the error is printed but `sys.exit` is not called (lines
116-117): the run returns normally (the process goes on to finish
`main` and exit successfully), and the rule list it submitted is the
same one a successful put would have written — the completed upload is
never touched (the merge performs no object operation at all). -/
theorem setLifecycleConfig_put_failure (pfx m : String)
    (rules : List LifecycleRule) :
    (setLifecycleConfig pfx (.ok rules) (some m)).exitCode = none ∧
    (setLifecycleConfig pfx (.ok rules) (some m)).printedD
      = ["Error with lifecycle configuration: " ++ m] ∧
    (setLifecycleConfig pfx (.ok rules) (some m)).putRulesD
      = (setLifecycleConfig pfx (.ok rules) none).putRulesD :=
  ⟨rfl, rfl, rfl⟩

/-- C6: `bucket_lifecycle.delete()` (line 108) is issued if and only if
the fetched rule set holds a rule whose ID equals the derived digest;
on the no-configuration path nothing is deleted.  (The model records
the delete as issued whenever the branch is taken, independent of any
observable outcome of the call — the script neither checks nor handles
one.) -/
theorem setLifecycleConfig_delete_iff (rules : List LifecycleRule)
    (pfx : String) (putError : Option String) :
    ((setLifecycleConfig pfx (.ok rules) putError).deleteIssuedD = true
      ↔ ∃ r ∈ rules, r.ID = firstSegment pfx) ∧
    (setLifecycleConfig pfx .noSuchLifecycleConfiguration putError).deleteIssuedD
      = false := by
  constructor
  · show (scanIndex rules (firstSegment pfx)).isSome = true ↔ _
    rw [← Option.ne_none_iff_isSome, ne_eq, scanIndex_eq_none_iff]
    constructor
    · intro hne
      by_contra hc
      push_neg at hc
      exact hne fun r hr => beq_eq_false_iff_ne.mpr (hc r hr)
    · rintro ⟨r, hr, hid⟩ hall
      have hfalse := hall r hr
      rw [hid] at hfalse
      simp at hfalse
  · rfl

/-- C8 counterexample: for the upload key `"D/report.zip"` the
constructed rule's `Prefix` is the full key `"D/report.zip"`, not the
digest folder `"D/"` that the claim states. -/
theorem newlifecyclerule_prefix_counterexample :
    (newlifecyclerule ("D" ++ "/report.zip")).Prefix = "D" ++ "/report.zip" ∧
    (newlifecyclerule ("D" ++ "/report.zip")).Prefix ≠ "D" ++ "/" := by decide

/-- C8 (amended): every rule constructed by the merge has `Prefix`
equal to the full upload key `digest/report.zip` (line 63 stores the
whole `prefix`), not the digest folder `digest/` alone. -/
theorem newlifecyclerule_prefix_full_key (d : String) :
    (newlifecyclerule (d ++ "/report.zip")).Prefix = d ++ "/report.zip" ∧
    (newlifecyclerule (d ++ "/report.zip")).Prefix ≠ d ++ "/" := by
  refine ⟨rfl, fun hcontra => ?_⟩
  have h0 : d ++ "/report.zip" = d ++ "/" := hcontra
  have h1 := congrArg String.data h0
  rw [String.data_append, String.data_append] at h1
  have h2 := List.append_cancel_left h1
  exact absurd h2 (by decide)

/-- C9: when the fetched rule set holds two or more rules whose ID
equals the derived digest, the scan records the highest matching index
`j`; the merge removes only that occurrence and appends the new rule,
so every earlier duplicate survives into the written-back set (its
matching-rule count is unchanged, hence still at least two). -/
theorem setLifecycleConfig_removes_last_dup (rules : List LifecycleRule)
    (pfx : String) (putError : Option String)
    (h2 : 2 ≤ rules.countP (fun r => r.ID == firstSegment pfx)) :
    ∃ j, scanIndex rules (firstSegment pfx) = some j ∧
      ((rules.getD j default).ID == firstSegment pfx) = true ∧
      (∀ i, j < i → i < rules.length →
        ((rules.getD i default).ID == firstSegment pfx) = false) ∧
      (setLifecycleConfig pfx (.ok rules) putError).putRulesD
        = (rules.take j ++ rules.drop (j + 1)) ++ [newlifecyclerule pfx] ∧
      (setLifecycleConfig pfx (.ok rules) putError).putRulesD.countP
          (fun r => r.ID == firstSegment pfx)
        = rules.countP (fun r => r.ID == firstSegment pfx) := by
  rcases hscan : scanIndex rules (firstSegment pfx) with _ | j
  · exfalso
    have h0 : rules.countP (fun r => r.ID == firstSegment pfx) = 0 := by
      rw [List.countP_eq_zero]
      intro r hr
      simp [(scanIndex_eq_none_iff rules (firstSegment pfx)).mp hscan r hr]
    omega
  · obtain ⟨hj, hpj, hlast⟩ := scanIndex_eq_some _ _ _ hscan
    have hn : ((newlifecyclerule pfx).ID == firstSegment pfx) = true := by
      simp [newlifecyclerule_ID]
    have hmr := mergedRules_of_scan_some rules pfx j hscan
    refine ⟨j, rfl, hpj, hlast, ?_, ?_⟩
    · show mergedRules rules pfx = _
      rw [hmr, List.eraseIdx_eq_take_drop_succ]
    · show (mergedRules rules pfx).countP _ = _
      rw [hmr, List.countP_append]
      have herase :=
        countP_eraseIdx_getD (fun r => r.ID == firstSegment pfx) rules j hj hpj
      simp only [List.countP_cons, List.countP_nil, hn, if_true]
      omega

/-- C9 witness: a fetched set holding the rule for digest `"abc123"`
twice. -/
theorem setLifecycleConfig_removes_last_dup_witness :
    (2 ≤ [sampleRule, sampleRule].countP
      (fun r => r.ID == firstSegment "abc123/report.zip")) ∧
    (∃ j, scanIndex [sampleRule, sampleRule]
        (firstSegment "abc123/report.zip") = some j ∧
      (([sampleRule, sampleRule].getD j default).ID
        == firstSegment "abc123/report.zip") = true ∧
      (∀ i, j < i → i < ([sampleRule, sampleRule] : List LifecycleRule).length →
        (([sampleRule, sampleRule].getD i default).ID
          == firstSegment "abc123/report.zip") = false) ∧
      (setLifecycleConfig "abc123/report.zip"
          (.ok [sampleRule, sampleRule]) none).putRulesD
        = (([sampleRule, sampleRule] : List LifecycleRule).take j
            ++ ([sampleRule, sampleRule] : List LifecycleRule).drop (j + 1))
          ++ [newlifecyclerule "abc123/report.zip"] ∧
      (setLifecycleConfig "abc123/report.zip"
          (.ok [sampleRule, sampleRule]) none).putRulesD.countP
          (fun r => r.ID == firstSegment "abc123/report.zip")
        = [sampleRule, sampleRule].countP
          (fun r => r.ID == firstSegment "abc123/report.zip")) :=
  ⟨by decide,
   setLifecycleConfig_removes_last_dup [sampleRule, sampleRule]
     "abc123/report.zip" none (by decide)⟩

/-- C10: frame property of the merge: every rule whose ID differs from
the derived digest survives unchanged and in its original relative
order (the written-back set, restricted to non-matching rules, is
exactly the fetched set so restricted), and the newly constructed rule
occupies the last position of the written-back set. -/
theorem setLifecycleConfig_frame (rules : List LifecycleRule) (pfx : String)
    (putError : Option String) :
    (setLifecycleConfig pfx (.ok rules) putError).putRulesD.filter
        (fun r => !(r.ID == firstSegment pfx))
      = rules.filter (fun r => !(r.ID == firstSegment pfx)) ∧
    (setLifecycleConfig pfx (.ok rules) putError).putRulesD.getLast?
      = some (newlifecyclerule pfx) := by
  constructor
  · show (mergedRules rules pfx).filter _ = _
    have hnewf : (fun r => !(r.ID == firstSegment pfx)) (newlifecyclerule pfx)
        = false := by
      simp [newlifecyclerule_ID]
    rcases hscan : scanIndex rules (firstSegment pfx) with _ | j
    · rw [mergedRules_of_scan_none rules pfx hscan, List.filter_append]
      simp [List.filter_cons, hnewf]
    · obtain ⟨hj, hpj, _⟩ := scanIndex_eq_some _ _ _ hscan
      rw [mergedRules_of_scan_some rules pfx j hscan, List.filter_append,
        filter_eraseIdx_getD (fun r => r.ID == firstSegment pfx) _
          (fun a ha => by simp [ha]) rules j hj hpj]
      simp [List.filter_cons, hnewf]
  · show (mergedRules rules pfx).getLast? = _
    unfold mergedRules
    exact List.getLast?_concat _

/-- C7: the digest computed by `getFolderName` — reading the stream in
1024-byte chunks and updating a running hash — equals the reference
SHA-256 of the whole stream; the same holds for every positive chunk
size, so the digest is independent of the chunk size used; and the
digest is rendered as a lowercase hexadecimal string (every character
is one of `0-9a-f`).  Identical contents yield an identical digest
since the digest is a function of the byte stream alone. -/
theorem getFolderName_spec (data : List Nat) (block : Nat) (hb : 0 < block) :
    getFolderName data = sha256hex data ∧
    hashChunks block data = sha256hex data ∧
    ∀ c ∈ (getFolderName data).data, c ∈ hexDigits := by
  refine ⟨hashChunks_eq_sha256hex 1024 (by omega) data,
    hashChunks_eq_sha256hex block hb data, ?_⟩
  intro c hc
  rw [show getFolderName data = sha256hex data from
    hashChunks_eq_sha256hex 1024 (by omega) data] at hc
  exact sha256hex_lower_hex data c hc

/-- C7 witness: the three-byte stream `"abc"` read in 2-byte chunks. -/
theorem getFolderName_spec_witness :
    (0 < 2) ∧
    (getFolderName [97, 98, 99] = sha256hex [97, 98, 99] ∧
      hashChunks 2 [97, 98, 99] = sha256hex [97, 98, 99] ∧
      ∀ c ∈ (getFolderName [97, 98, 99]).data, c ∈ hexDigits) :=
  ⟨by decide, getFolderName_spec [97, 98, 99] 2 (by decide)⟩

end UploadReport
